import Mathlib

/-!
Verification of the sprite-animation library (Go packages `sprites` and
`asesprite`) against its specification.

The embedding is shallow:
* Go `time.Time` and `time.Duration` values are modelled as `ℤ`
  (nanoseconds); `time.Time.Sub` is integer subtraction, the zero `time.Time`
  is `0`, and `time.Now()` is passed in explicitly as a `now` argument
  wherever the source calls it.
* Go `float64` fields (`X`, `Y`, `Scale`, `Speed`, `Angle`) are modelled as
  `ℚ`; the only float operation the claims touch is the conversion
  `time.Duration(sprite.Speed)`, a truncation toward zero, which is exact on
  the rationals involved.
* `*ebiten.Image` is modelled by the rectangular region of the atlas the
  image views; `ebiten.Image.SubImage` returns the image viewing the given
  region.  (As of Ebitengine 2.3.3 `SubImage` always returns an
  `*ebiten.Image`, so the defensive type-assertion failure branch in
  `asesprite.go` is unreachable in the modelled engine.)
* Go maps are modelled as association lists with first-match lookup and
  cons-front insertion (so a later insertion shadows an earlier one, as a
  Go map assignment overwrites).
* Out-of-range slice indexing panics in Go; the model totalises it with
  `List.getD` and a default element, and every theorem touching indices
  carries the bounds hypotheses under which Go does not panic.
-/

/-- Model of Go `image.Rectangle` (corner representation). -/
structure GoRect where
  minX : ℤ
  minY : ℤ
  maxX : ℤ
  maxY : ℤ
deriving DecidableEq, Repr

/-- Model of Go `image.Rect(x0, y0, x1, y1)`, including its canonicalisation
swapping the corners so that min ≤ max on each axis. -/
def goRect (x0 y0 x1 y1 : ℤ) : GoRect :=
  { minX := if x0 ≤ x1 then x0 else x1
    maxX := if x0 ≤ x1 then x1 else x0
    minY := if y0 ≤ y1 then y0 else y1
    maxY := if y0 ≤ y1 then y1 else y0 }

namespace ebiten

/-- Model of `*ebiten.Image`: identified by the atlas region it views. -/
structure Image where
  region : GoRect
deriving DecidableEq, Repr

/-- Model of `(*ebiten.Image).SubImage`: the image viewing region `r`. -/
def Image.SubImage (_img : Image) (r : GoRect) : Image := { region := r }

end ebiten

namespace sprites

/-- `type Direction string` (animations.go). -/
abbrev Direction := String

/-- `sprites.Frame` (animations.go): one animation frame. -/
structure Frame where
  Image : ebiten.Image
  /-- display duration, nanoseconds -/
  Duration : ℤ
deriving DecidableEq, Repr

/-- `sprites.Animation` (animations.go). -/
structure Animation where
  Frames : List Frame
  Direction : Direction
deriving DecidableEq, Repr

/-- `type HorizonalAlignment func(x, width float64) float64` (source spelling). -/
abbrev HorizonalAlignment := ℚ → ℚ → ℚ

/-- `type VerticalAlignment func(y, height float64) float64`. -/
abbrev VerticalAlignment := ℚ → ℚ → ℚ

/-- `type Alignment func(x, y, width, height float64) (float64, float64)`. -/
abbrev Alignment := ℚ → ℚ → ℚ → ℚ → ℚ × ℚ

def Left : HorizonalAlignment := fun x _width => x

def Center : HorizonalAlignment := fun x width => x - width / 2

def Right : HorizonalAlignment := fun x width => x - width

def Top : VerticalAlignment := fun y _height => y

def Middle : VerticalAlignment := fun y height => y - height / 2

def Bottom : VerticalAlignment := fun y height => y - height

def TopLeft : Alignment := fun x y width height => (Left x width, Top y height)

def TopCenter : Alignment := fun x y width height => (Center x width, Top y height)

def TopRight : Alignment := fun x y width height => (Right x width, Top y height)

def MiddleLeft : Alignment := fun x y width height => (Left x width, Middle y height)

def MiddleCenter : Alignment := fun x y width height => (Center x width, Middle y height)

def MiddleRight : Alignment := fun x y width height => (Right x width, Middle y height)

def BottomLeft : Alignment := fun x y width height => (Left x width, Bottom y height)

def BottomMiddle : Alignment := fun x y width height => (Middle x width, Bottom y height)

def BottomRight : Alignment := fun x y width height => (Right x width, Bottom y height)

/-- `sprites.Sprite` (animations.go).  The Go field `repeat` is renamed
`repeats` (`repeat` is a Lean keyword); the draw-only `options` field
(`*ebiten.DrawImageOptions`) is omitted, as is `Draw`, which only reads
playback state. -/
structure Sprite where
  X : ℚ
  Y : ℚ
  Origin : Alignment
  Scale : ℚ
  Speed : ℚ
  Angle : ℚ
  animation : Animation
  frame : ℕ
  paused : Bool
  Visible : Bool
  repeats : Bool
  /-- last-transition timestamp, nanoseconds -/
  last : ℤ

/-- `sprites.NewSprite` (animations.go:124-141); `now` models `time.Now()`. -/
def NewSprite (animation : Animation) (now : ℤ) : Sprite :=
  { X := 0
    Y := 0
    Origin := TopLeft
    Scale := 1
    Speed := 1
    Angle := 0
    Visible := true
    animation := animation
    frame := 0
    paused := false
    repeats := true
    last := now }

/-- `(*Sprite).SetAnimation` (animations.go:143-149); `now` models `time.Now()`. -/
def Sprite.SetAnimation (sprite : Sprite) (animation : Animation) (repeats : Bool)
    (now : ℤ) : Sprite :=
  { sprite with
      animation := animation
      frame := 0
      paused := true
      repeats := repeats
      last := now }

/-- `(*Sprite).Start` (animations.go:151-163); `now` models `time.Now()`,
used when `at.IsZero()`. -/
def Sprite.Start (sprite : Sprite) (t : ℤ) (now : ℤ) : Sprite :=
  if sprite.paused = false then sprite
  else
    { sprite with
        frame := 0
        last := if t = 0 then now else t
        paused := false }

/-- `(*Sprite).Stop` (animations.go:165-173); `now` models `time.Now()`. -/
def Sprite.Stop (sprite : Sprite) (now : ℤ) : Sprite :=
  if sprite.paused = true then sprite
  else
    { sprite with
        frame := 0
        last := now
        paused := true }

/-- The Go conversion `time.Duration(q)` on a real value: truncation toward
zero.  On `ℚ` this is `num.tdiv den`. -/
def ratTruncToInt (q : ℚ) : ℤ := q.num.tdiv (q.den : ℤ)

/-- Default frame used to totalise the (panicking) Go slice index
`sprite.animation.Frames[sprite.frame]`. -/
def dFrame : Frame := { Image := { region := goRect 0 0 0 0 }, Duration := 0 }

/-- The scaled threshold of animations.go:181:
`sprite.animation.Frames[sprite.frame].Duration * time.Duration(sprite.Speed)`. -/
def Sprite.scaledDuration (sprite : Sprite) : ℤ :=
  (sprite.animation.Frames.getD sprite.frame dFrame).Duration *
    ratTruncToInt sprite.Speed

/-- `(*Sprite).Update` (animations.go:175-196). -/
def Sprite.Update (sprite : Sprite) (t : ℤ) : Sprite :=
  if sprite.paused = true then sprite
  else
    let elapsed := t - sprite.last
    if elapsed < sprite.scaledDuration then sprite
    else if (sprite.animation.Frames.length : ℤ) - 1 ≤ (sprite.frame : ℤ) then
      if sprite.repeats = true then { sprite with frame := 0, last := t }
      else { sprite with paused := true, last := t }
    else { sprite with frame := sprite.frame + 1, last := t }

end sprites

namespace asesprite

/-- `type direction string` (asesprite.go). -/
abbrev direction := String

/-- `type blendMode string` (asesprite.go). -/
abbrev blendMode := String

/-- `asesprite.coordinates`. -/
structure coordinates where
  X : ℤ
  Y : ℤ
deriving DecidableEq, Repr

/-- `asesprite.dimensions`. -/
structure dimensions where
  Width : ℤ
  Height : ℤ
deriving DecidableEq, Repr

/-- `asesprite.rectangle`: Go embeds `coordinates` and `dimensions`;
flattened here. -/
structure rectangle where
  X : ℤ
  Y : ℤ
  Width : ℤ
  Height : ℤ
deriving DecidableEq, Repr

/-- `asesprite.frameTag`.  Go fields `From`/`To` are renamed
`FromIdx`/`ToIdx` (`from` is a Lean keyword). -/
structure frameTag where
  Name : String
  FromIdx : ℤ
  ToIdx : ℤ
  Direction : direction
deriving DecidableEq, Repr

/-- `asesprite.layer`. -/
structure layer where
  Name : String
  Opacity : ℕ
  BlendMode : blendMode
deriving DecidableEq, Repr

/-- `asesprite.slice` (empty struct in the source). -/
structure slice where
deriving DecidableEq, Repr

/-- `asesprite.metadata`. -/
structure metadata where
  Application : String
  Version : String
  Image : String
  Format : String
  Size : dimensions
  Scale : String
  FrameTags : List frameTag
  Layers : List layer
  Slices : List slice
deriving DecidableEq, Repr

/-- `asesprite.frame`: one manifest frame record.  `Duration` is the raw
JSON number (interpreted in milliseconds by `Animation`). -/
structure frame where
  Filename : String
  Frame : rectangle
  Rotated : Bool
  Trimmed : Bool
  SpriteSourceSize : rectangle
  SourceSize : dimensions
  Duration : ℤ
deriving DecidableEq, Repr

/-- `asesprite.asespriteData`. -/
structure asespriteData where
  Frames : List frame
  Metadata : metadata
deriving DecidableEq, Repr

/-- `asesprite.AsespriteSpriteSheet`.  The caches are modelled as a list of
optional images indexed by frame position and an association list keyed by
tag name. -/
structure AsespriteSpriteSheet where
  data : asespriteData
  image : ebiten.Image
  imageCache : List (Option ebiten.Image)
  animationCache : List (String × sprites.Animation)
deriving DecidableEq, Repr

/-- `asesprite.AnimationNotFoundError` (error.go): the error value, as its
message string. -/
def AnimationNotFoundError (name : String) : String :=
  "no animation found with name " ++ name

/-- Association-list lookup modelling a Go map read (first match wins;
insertion is cons-front, so this realises overwrite semantics). -/
def alistFind {α : Type} : List (String × α) → String → Option α
  | [], _ => none
  | (k, v) :: rest, n => if k = n then some v else alistFind rest n

/-- The linear scan of asesprite.go:107-112: first frame tag whose name
equals the requested name. -/
def firstTag : List frameTag → String → Option frameTag
  | [], _ => none
  | t :: rest, n => if t.Name = n then some t else firstTag rest n

/-- The index sequence of the loop `for i := tag.From; i <= tag.To; i++`. -/
def rangeClosed (lo hi : ℤ) : List ℤ :=
  (List.range (hi - lo + 1).toNat).map (fun k : ℕ => lo + Int.ofNat k)

/-- The `image.Rect` argument of asesprite.go:131-135 for a manifest frame. -/
def rectOfFrame (f : frame) : GoRect :=
  goRect f.Frame.X f.Frame.Y (f.Frame.X + f.Frame.Width) (f.Frame.Y + f.Frame.Height)

/-- Default manifest frame totalising the Go index `spritesheet.data.Frames[i]`. -/
def dManifestFrame : frame :=
  { Filename := ""
    Frame := { X := 0, Y := 0, Width := 0, Height := 0 }
    Rotated := false
    Trimmed := false
    SpriteSourceSize := { X := 0, Y := 0, Width := 0, Height := 0 }
    SourceSize := { Width := 0, Height := 0 }
    Duration := 0 }

/-- The body of the loop of asesprite.go:122-149: resolve the given frame
indices to sprite frames, threading the sub-image cache and counting the
`SubImage` extractions performed.  `time.Millisecond * f.Duration` is
`1000000 * f.Duration` in nanoseconds. -/
def resolveFrames (d : asespriteData) (atlas : ebiten.Image) :
    List ℤ → List (Option ebiten.Image) →
      List sprites.Frame × List (Option ebiten.Image) × ℕ
  | [], cache => ([], cache, 0)
  | i :: rest, cache =>
    let f := d.Frames.getD i.toNat dManifestFrame
    match cache.getD i.toNat none with
    | some img =>
      let r := resolveFrames d atlas rest cache
      ({ Image := img, Duration := 1000000 * f.Duration } :: r.1, r.2.1, r.2.2)
    | none =>
      let img := atlas.SubImage (rectOfFrame f)
      let r := resolveFrames d atlas rest (cache.set i.toNat (some img))
      ({ Image := img, Duration := 1000000 * f.Duration } :: r.1, r.2.1, r.2.2 + 1)

/-- `(*AsespriteSpriteSheet).Animation` (asesprite.go:97-155).  Returns the
result, the sheet after the call (the Go method mutates the receiver's
caches), and the number of `SubImage` extractions performed. -/
def AsespriteSpriteSheet.Animation (spritesheet : AsespriteSpriteSheet) (name : String) :
    Except String sprites.Animation × AsespriteSpriteSheet × ℕ :=
  match alistFind spritesheet.animationCache name with
  | some animation => (.ok animation, spritesheet, 0)
  | none =>
    match firstTag spritesheet.data.Metadata.FrameTags name with
    | none => (.error (AnimationNotFoundError name), spritesheet, 0)
    | some tag =>
      let r := resolveFrames spritesheet.data spritesheet.image
        (rangeClosed tag.FromIdx tag.ToIdx) spritesheet.imageCache
      let animation : sprites.Animation :=
        { Frames := r.1, Direction := tag.Direction }
      (.ok animation,
        { spritesheet with
            imageCache := r.2.1
            animationCache := (name, animation) :: spritesheet.animationCache },
        r.2.2)

/-- The loop of `AllAnimations` (asesprite.go:160-168), threading the sheet
state through the successive `Animation` calls and accumulating the result
map (cons-front insertion = Go map overwrite). -/
def allAnimationsGo (spritesheet : AsespriteSpriteSheet)
    (acc : List (String × sprites.Animation)) :
    List frameTag →
      Except String (List (String × sprites.Animation)) × AsespriteSpriteSheet
  | [] => (.ok acc, spritesheet)
  | tag :: rest =>
    match spritesheet.Animation tag.Name with
    | (.ok a, sheet1, _) => allAnimationsGo sheet1 ((tag.Name, a) :: acc) rest
    | (.error e, sheet1, _) => (.error e, sheet1)

/-- `(*AsespriteSpriteSheet).AllAnimations` (asesprite.go:157-171). -/
def AsespriteSpriteSheet.AllAnimations (spritesheet : AsespriteSpriteSheet) :
    Except String (List (String × sprites.Animation)) × AsespriteSpriteSheet :=
  allAnimationsGo spritesheet [] spritesheet.data.Metadata.FrameTags

/-- `asesprite.NewSpritesheet` (asesprite.go:175-189), after the JSON has
been unmarshalled (deserialisation is a black box per the spec): fresh
caches, image cache sized to the number of manifest frames. -/
def NewSpritesheet (decodedImage : ebiten.Image) (jsonData : asespriteData) :
    AsespriteSpriteSheet :=
  { data := jsonData
    image := decodedImage
    imageCache := List.replicate jsonData.Frames.length none
    animationCache := [] }

/-- The sprite frame the loop of asesprite.go:122-149 produces for manifest
index `i` (pure characterisation, used to state cache coherence). -/
def frameFor (d : asespriteData) (atlas : ebiten.Image) (i : ℤ) : sprites.Frame :=
  let f := d.Frames.getD i.toNat dManifestFrame
  { Image := atlas.SubImage (rectOfFrame f), Duration := 1000000 * f.Duration }

/-- The animation `Animation` builds for a frame tag (pure characterisation). -/
def animFor (d : asespriteData) (atlas : ebiten.Image) (tag : frameTag) :
    sprites.Animation :=
  { Frames := (rangeClosed tag.FromIdx tag.ToIdx).map (frameFor d atlas)
    Direction := tag.Direction }

/-- Sub-image-cache coherence: every cached image is the sub-image of the
corresponding manifest frame's region. -/
def ImgCacheWfOn (d : asespriteData) (atlas : ebiten.Image)
    (cache : List (Option ebiten.Image)) : Prop :=
  ∀ i img, cache.getD i none = some img →
    img = atlas.SubImage (rectOfFrame (d.Frames.getD i dManifestFrame))

/-- Spritesheet well-formedness: both caches agree with the manifest.  Holds
for a fresh sheet and is preserved by `Animation`. -/
def Wf (s : AsespriteSpriteSheet) : Prop :=
  ImgCacheWfOn s.data s.image s.imageCache ∧
  ∀ n a, alistFind s.animationCache n = some a →
    ∃ tag, firstTag s.data.Metadata.FrameTags n = some tag ∧
      a = animFor s.data s.image tag

end asesprite

/-! ## Concrete data used in examples, counterexamples and witnesses -/

def exImg : ebiten.Image := { region := goRect 0 0 16 16 }

/-- The 3-frame animation of the spec's frame-advance example:
durations [100ms, 200ms, 150ms] in nanoseconds. -/
def exAnim : sprites.Animation :=
  { Frames :=
      [ { Image := exImg, Duration := 100000000 }
      , { Image := exImg, Duration := 200000000 }
      , { Image := exImg, Duration := 150000000 } ]
    Direction := "forward" }

/-- Sprite of the spec example: fresh sprite (repeat=true, speed=1) started at t=0. -/
def exSprite : sprites.Sprite := sprites.NewSprite exAnim 0

def anim2x100 : sprites.Animation :=
  { Frames := [ { Image := exImg, Duration := 100 }, { Image := exImg, Duration := 100 } ]
    Direction := "forward" }

/-- The rational 1/2 in explicitly reduced form (kernel-reducible, unlike
the `1 / 2` numeral whose normalisation runs `Nat.gcd`). -/
def halfQ : ℚ := ⟨1, 2, by decide, Nat.gcd_one_left 2⟩

theorem halfQ_eq : halfQ = 1 / 2 := by
  rw [show halfQ = Rat.mk' 1 2 (by decide) (Nat.gcd_one_left 2) from rfl]
  rw [Rat.mk'_eq_divInt]
  norm_num [Rat.divInt_eq_div]

/-- The rational 3/2 in explicitly reduced form. -/
def threeHalvesQ : ℚ := ⟨3, 2, by decide, by norm_num⟩

theorem threeHalvesQ_eq : threeHalvesQ = 3 / 2 := by
  rw [show threeHalvesQ = Rat.mk' 3 2 (by decide) (by norm_num) from rfl]
  rw [Rat.mk'_eq_divInt]
  norm_num [Rat.divInt_eq_div]

/-- A playing sprite with speed 1/2 on two 100ns frames, last transition at 0. -/
def csSpeedHalf : sprites.Sprite := { sprites.NewSprite anim2x100 0 with Speed := halfQ }

def anim1x1 : sprites.Animation :=
  { Frames := [ { Image := exImg, Duration := 1 } ], Direction := "forward" }

def anim2x1 : sprites.Animation :=
  { Frames := [ { Image := exImg, Duration := 1 }, { Image := exImg, Duration := 1 } ]
    Direction := "forward" }

/-- A playing non-repeating sprite on its (single, hence last) frame. -/
def sNR : sprites.Sprite := { sprites.NewSprite anim1x1 5 with repeats := false }

/-! ## Sprite playback state machine: reachable states -/

/-- Sprite states reachable through `NewSprite`, `Start`, `Stop`,
`SetAnimation` and `Update` (animations to bind are non-empty, as the spec
requires and as `Update` needs to avoid the Go index panic). -/
inductive ReachableSprite : sprites.Sprite → Prop
  | new (a : sprites.Animation) (now : ℤ) (h : 0 < a.Frames.length) :
      ReachableSprite (sprites.NewSprite a now)
  | start (s : sprites.Sprite) (t now : ℤ) (h : ReachableSprite s) :
      ReachableSprite (s.Start t now)
  | stop (s : sprites.Sprite) (now : ℤ) (h : ReachableSprite s) :
      ReachableSprite (s.Stop now)
  | set (s : sprites.Sprite) (a : sprites.Animation) (r : Bool) (now : ℤ)
      (ha : 0 < a.Frames.length) (h : ReachableSprite s) :
      ReachableSprite (s.SetAnimation a r now)
  | update (s : sprites.Sprite) (t : ℤ) (h : ReachableSprite s) :
      ReachableSprite (s.Update t)

/-! Branch characterisations of `Sprite.Update` (helper lemmas). -/

theorem update_of_paused (s : sprites.Sprite) (t : ℤ) (hp : s.paused = true) :
    s.Update t = s := by
  simp [sprites.Sprite.Update, hp]

theorem update_of_early (s : sprites.Sprite) (t : ℤ) (hp : s.paused = false)
    (hlt : t - s.last < s.scaledDuration) :
    s.Update t = s := by
  simp [sprites.Sprite.Update, hp, hlt]

theorem update_of_wrap (s : sprites.Sprite) (t : ℤ) (hp : s.paused = false)
    (hge : s.scaledDuration ≤ t - s.last)
    (hlast : (s.animation.Frames.length : ℤ) - 1 ≤ (s.frame : ℤ))
    (hrep : s.repeats = true) :
    s.Update t = { s with frame := 0, last := t } := by
  simp [sprites.Sprite.Update, hp, not_lt.mpr hge, hlast, hrep]

theorem update_of_finish (s : sprites.Sprite) (t : ℤ) (hp : s.paused = false)
    (hge : s.scaledDuration ≤ t - s.last)
    (hlast : (s.animation.Frames.length : ℤ) - 1 ≤ (s.frame : ℤ))
    (hrep : s.repeats = false) :
    s.Update t = { s with paused := true, last := t } := by
  simp [sprites.Sprite.Update, hp, not_lt.mpr hge, hlast, hrep]

theorem update_of_next (s : sprites.Sprite) (t : ℤ) (hp : s.paused = false)
    (hge : s.scaledDuration ≤ t - s.last)
    (hlast : (s.frame : ℤ) < (s.animation.Frames.length : ℤ) - 1) :
    s.Update t = { s with frame := s.frame + 1, last := t } := by
  simp [sprites.Sprite.Update, hp, not_lt.mpr hge, not_le.mpr hlast]

/-- Invariant of the playback state machine: the frame index stays in range,
and a stopped sprite is either at frame 0 or parked on the final frame
(the latter happens when a non-repeating animation finishes: `Update` sets
`paused` without resetting `frame`, animations.go:190). -/
theorem reachable_sprite_inv (s : sprites.Sprite) (h : ReachableSprite s) :
    s.frame < s.animation.Frames.length ∧
      (s.paused = true → s.frame = 0 ∨ s.frame + 1 = s.animation.Frames.length) := by
  induction h with
  | new a now h =>
    refine ⟨h, fun hp => ?_⟩
    simp [sprites.NewSprite] at hp
  | start s t now h ih =>
    unfold sprites.Sprite.Start
    split_ifs with hp
    · exact ih
    · exact ⟨lt_of_le_of_lt (Nat.zero_le _) ih.1, fun _ => Or.inl rfl⟩
    · exact ⟨lt_of_le_of_lt (Nat.zero_le _) ih.1, fun _ => Or.inl rfl⟩
  | stop s now h ih =>
    unfold sprites.Sprite.Stop
    split_ifs with hp
    · exact ih
    · exact ⟨lt_of_le_of_lt (Nat.zero_le _) ih.1, fun _ => Or.inl rfl⟩
  | set s a r now ha h ih =>
    exact ⟨ha, fun _ => Or.inl rfl⟩
  | update s t h ih =>
    have h1 := ih.1
    rcases hp : s.paused with _ | _
    · rcases le_or_lt s.scaledDuration (t - s.last) with hge | hlt
      · rcases le_or_lt ((s.animation.Frames.length : ℤ) - 1) (s.frame : ℤ) with hlast | hlast
        · rcases hrep : s.repeats with _ | _
          · rw [update_of_finish s t hp hge hlast hrep]
            refine ⟨ih.1, fun _ => Or.inr ?_⟩
            show s.frame + 1 = s.animation.Frames.length
            omega
          · rw [update_of_wrap s t hp hge hlast hrep]
            exact ⟨lt_of_le_of_lt (Nat.zero_le _) ih.1, fun _ => Or.inl rfl⟩
        · rw [update_of_next s t hp hge hlast]
          refine ⟨?_, fun hq => ?_⟩
          · show s.frame + 1 < s.animation.Frames.length
            omega
          · have hq' : s.paused = true := hq
            rw [hp] at hq'
            exact Bool.noConfusion hq'
      · rw [update_of_early s t hp hlt]
        exact ih
    · rw [update_of_paused s t hp]
      exact ih

/-! ## Claim theorems: sprite playback -/

/-- C1: for a Playing sprite, `Update(at_time)` changes no state when
`at_time - last < ` the current frame's scaled duration; otherwise it makes
exactly one transition — next frame when not on the last frame, wrap to 0 on
the last frame with repeat, Stopped on the last frame without repeat — and in
every transitioning case records `at_time` as the new last-transition
timestamp (so at most one frame advance happens per call however large the
elapsed time).  In particular, for a 3-frame animation with durations
[100ms, 200ms, 150ms], repeat=true, speed=1, started at t=0:
Update(50ms) leaves frame 0, Update(100ms) gives frame 1, Update(301ms)
gives frame 2, and Update at last-transition+150ms wraps to frame 0. -/
theorem update_advance_rule :
    (∀ (s : sprites.Sprite) (t : ℤ), s.paused = false →
      (t - s.last < s.scaledDuration → s.Update t = s) ∧
      (s.scaledDuration ≤ t - s.last →
        ((s.frame : ℤ) < (s.animation.Frames.length : ℤ) - 1 →
          s.Update t = { s with frame := s.frame + 1, last := t }) ∧
        ((s.animation.Frames.length : ℤ) - 1 ≤ (s.frame : ℤ) → s.repeats = true →
          s.Update t = { s with frame := 0, last := t }) ∧
        ((s.animation.Frames.length : ℤ) - 1 ≤ (s.frame : ℤ) → s.repeats = false →
          s.Update t = { s with paused := true, last := t }))) ∧
    (exSprite.Update 50000000 = exSprite ∧
      exSprite.Update 100000000 = { exSprite with frame := 1, last := 100000000 } ∧
      (exSprite.Update 100000000).Update 301000000 =
        { exSprite with frame := 2, last := 301000000 } ∧
      ((exSprite.Update 100000000).Update 301000000).Update 451000000 =
        { exSprite with frame := 0, last := 451000000 }) := by
  constructor
  · intro s t hp
    refine ⟨fun hlt => update_of_early s t hp hlt, fun hge => ⟨?_, ?_, ?_⟩⟩
    · intro hlast
      exact update_of_next s t hp hge hlast
    · intro hlast hrep
      exact update_of_wrap s t hp hge hlast hrep
    · intro hlast hrep
      exact update_of_finish s t hp hge hlast hrep
  · exact ⟨rfl, rfl, rfl, rfl⟩

/-- Witness for C1: the first part applied to the example sprite at t=50ms. -/
theorem update_advance_rule_witness :
    exSprite.paused = false ∧ exSprite.Update 50000000 = exSprite :=
  ⟨rfl, (update_advance_rule.1 exSprite 50000000 rfl).1 (by decide)⟩

/-- C2 counterexample: the claim that the update threshold is the nominal
duration times the real-valued speed is false.  `csSpeedHalf` has speed 1/2
and current-frame duration 100, so the claimed threshold is 50 and an update
30ns after the last transition should change nothing; the code truncates the
speed to `time.Duration(0.5) = 0`, giving threshold 0, and the update
advances to frame 1. -/
theorem speed_real_scaling_false :
    ¬ (∀ (s : sprites.Sprite) (t : ℤ), s.paused = false →
        ((t : ℚ) - (s.last : ℚ) <
            ((s.animation.Frames.getD s.frame sprites.dFrame).Duration : ℚ) * s.Speed →
          s.Update t = s)) := by
  intro hclaim
  have hlt : ((30 : ℤ) : ℚ) - ((0 : ℤ) : ℚ) < ((100 : ℤ) : ℚ) * halfQ := by
    rw [halfQ_eq]
    push_cast
    norm_num
  have h2 := hclaim csSpeedHalf 30 rfl hlt
  exact absurd (congrArg sprites.Sprite.frame h2) (by decide)

/-- C2 (amended): the threshold `Update` compares elapsed time against is the
current frame's nominal duration multiplied by the speed field truncated
toward zero to an integer (the Go conversion `time.Duration(sprite.Speed)`),
not by the real-valued speed: speed 1/2 gives threshold 0 (immediate
advance), speed 3/2 gives the nominal duration.  Larger integer-truncated
speed values still produce slower playback. -/
theorem speed_trunc_scaling :
    (∀ (s : sprites.Sprite) (t : ℤ), s.paused = false →
      (t - s.last <
          (s.animation.Frames.getD s.frame sprites.dFrame).Duration *
            sprites.ratTruncToInt s.Speed →
        s.Update t = s) ∧
      ((s.animation.Frames.getD s.frame sprites.dFrame).Duration *
          sprites.ratTruncToInt s.Speed ≤ t - s.last →
        (s.Update t).last = t)) ∧
    (halfQ = 1 / 2 ∧ sprites.ratTruncToInt halfQ = 0) ∧
    sprites.ratTruncToInt 1 = 1 ∧
    (threeHalvesQ = 3 / 2 ∧ sprites.ratTruncToInt threeHalvesQ = 1) ∧
    sprites.ratTruncToInt 2 = 2 := by
  refine ⟨?_, ⟨halfQ_eq, by decide⟩, by decide, ⟨threeHalvesQ_eq, by decide⟩, by decide⟩
  intro s t hp
  refine ⟨fun hlt => update_of_early s t hp hlt, fun hge => ?_⟩
  rcases le_or_lt ((s.animation.Frames.length : ℤ) - 1) (s.frame : ℤ) with hlast | hlast
  · rcases hrep : s.repeats with _ | _
    · rw [update_of_finish s t hp hge hlast hrep]
    · rw [update_of_wrap s t hp hge hlast hrep]
  · rw [update_of_next s t hp hge hlast]

/-- Witness for the amended C2: the sprite with speed 1/2 updates
immediately (threshold 0) and records the new timestamp. -/
theorem speed_trunc_scaling_witness :
    csSpeedHalf.paused = false ∧ (csSpeedHalf.Update 30).last = 30 :=
  ⟨rfl, (speed_trunc_scaling.1 csSpeedHalf 30 rfl).2 (by decide)⟩

/-- A reachable stopped state with non-zero frame: play a 2-frame
non-repeating animation to its end.  `SetAnimation` stops the sprite,
`Start(1)` begins playback, `Update(2)` advances to frame 1, `Update(3)`
finishes the non-repeating animation: paused becomes true, frame stays 1. -/
def cexStopped : sprites.Sprite :=
  ((((sprites.NewSprite anim2x1 0).SetAnimation anim2x1 false 0).Start 1 99).Update 2).Update 3

/-- C3 counterexample: the invariant "Stopped implies frame = 0" fails on a
reachable state.  When a non-repeating animation finishes, `Update` sets
`paused` without resetting `frame` (animations.go:190), so `cexStopped` is
Stopped with frame = 1. -/
theorem stopped_frame_zero_false :
    ∃ s : sprites.Sprite, ReachableSprite s ∧ s.paused = true ∧ s.frame ≠ 0 := by
  refine ⟨cexStopped, ?_, by decide, by decide⟩
  exact ReachableSprite.update _ 3
    (ReachableSprite.update _ 2
      (ReachableSprite.start _ 1 99
        (ReachableSprite.set _ _ false 0 (by decide)
          (ReachableSprite.new anim2x1 0 (by decide)))))

/-- C3 (amended): in every reachable state, a Stopped sprite is either at
frame 0 or parked on the final frame index of its animation; the latter
state shape arises exactly when a non-repeating animation finishes, since
`Update` then sets `paused` without resetting `frame`. -/
theorem stopped_frame_inv (s : sprites.Sprite) (h : ReachableSprite s)
    (hp : s.paused = true) :
    s.frame = 0 ∨ s.frame + 1 = s.animation.Frames.length :=
  (reachable_sprite_inv s h).2 hp

/-- A stopped reachable sprite used to witness the amended C3. -/
def wStopped : sprites.Sprite := (sprites.NewSprite anim2x1 0).SetAnimation anim2x1 false 5

/-- Witness for the amended C3 at a concrete stopped reachable state. -/
theorem stopped_frame_inv_witness :
    wStopped.paused = true ∧
      (wStopped.frame = 0 ∨ wStopped.frame + 1 = wStopped.animation.Frames.length) :=
  ⟨rfl,
    stopped_frame_inv wStopped
      (ReachableSprite.set _ _ false 5 (by decide) (ReachableSprite.new anim2x1 0 (by decide)))
      rfl⟩

/-- C8: a Playing non-repeating sprite on its last frame whose elapsed time
has reached its scaled duration transitions to Stopped; every later `Update`
leaves the stopped state unchanged, until `Start` resumes playback
(un-pauses). -/
theorem nonrepeat_stops (s : sprites.Sprite) (t : ℤ)
    (hp : s.paused = false) (hrep : s.repeats = false)
    (hlast : (s.animation.Frames.length : ℤ) - 1 ≤ (s.frame : ℤ))
    (hge : s.scaledDuration ≤ t - s.last) :
    s.Update t = { s with paused := true, last := t } ∧
    (∀ t2 : ℤ, ({ s with paused := true, last := t } : sprites.Sprite).Update t2 =
      { s with paused := true, last := t }) ∧
    (∀ t2 now : ℤ,
      (({ s with paused := true, last := t } : sprites.Sprite).Start t2 now).paused = false) := by
  exact ⟨update_of_finish s t hp hge hlast hrep, fun t2 => update_of_paused _ t2 rfl,
    fun t2 now => rfl⟩

/-- Witness for C8: a single-frame non-repeating sprite started at t=5
stops at t=6. -/
theorem nonrepeat_stops_witness :
    sNR.Update 6 = { sNR with paused := true, last := 6 } :=
  (nonrepeat_stops sNR 6 rfl rfl (by decide) (by decide)).1

/-- C9: `SetAnimation(animation, repeat)` in any prior state replaces the
bound animation, resets the frame index to 0, forces Stopped (paused=true),
sets the repeat flag to the given value, and records the current time
(`now`, modelling `time.Now()`) as the last-transition timestamp. -/
theorem setAnimation_reset (s : sprites.Sprite) (a : sprites.Animation)
    (r : Bool) (now : ℤ) :
    s.SetAnimation a r now =
      { s with animation := a, frame := 0, paused := true, repeats := r, last := now } :=
  rfl

/-- C10: `NewSprite(animation)` returns a sprite already Playing
(paused=false) with repeat=true and frame 0 — not Stopped awaiting `Start` —
and with presentation defaults X=0, Y=0, Origin=TopLeft, Scale=1, Speed=1,
Angle=0, Visible=true. -/
theorem newSprite_defaults (a : sprites.Animation) (now : ℤ) :
    (sprites.NewSprite a now).paused = false ∧
    (sprites.NewSprite a now).repeats = true ∧
    (sprites.NewSprite a now).frame = 0 ∧
    (sprites.NewSprite a now).X = 0 ∧
    (sprites.NewSprite a now).Y = 0 ∧
    (sprites.NewSprite a now).Origin = sprites.TopLeft ∧
    (sprites.NewSprite a now).Scale = 1 ∧
    (sprites.NewSprite a now).Speed = 1 ∧
    (sprites.NewSprite a now).Angle = 0 ∧
    (sprites.NewSprite a now).Visible = true :=
  ⟨rfl, rfl, rfl, rfl, rfl, rfl, rfl, rfl, rfl, rfl⟩

/-! ## Spritesheet lemmas -/

namespace asesprite

theorem getD_set_eq {α : Type} (l : List α) (i : ℕ) (v d : α) (h : i < l.length) :
    (l.set i v).getD i d = v := by
  rw [List.getD_eq_getElem?_getD, List.getElem?_set_self', List.getElem?_eq_getElem h]
  rfl

theorem getD_set_ne {α : Type} (l : List α) (i j : ℕ) (v d : α) (h : i ≠ j) :
    (l.set i v).getD j d = l.getD j d := by
  rw [List.getD_eq_getElem?_getD, List.getElem?_set_ne h, List.getD_eq_getElem?_getD]

theorem getD_map_range {α : Type} (g : ℕ → α) (n j : ℕ) (d : α) (hj : j < n) :
    ((List.range n).map g).getD j d = g j := by
  rw [List.getD_eq_getElem?_getD, List.getElem?_map, List.getElem?_range hj]
  rfl

theorem getD_replicate_none {α : Type} (n i : ℕ) :
    (List.replicate n (none : Option α)).getD i none = none := by
  induction n generalizing i with
  | zero => rfl
  | succ m ih =>
    cases i with
    | zero => rfl
    | succ j => exact ih j

/-- Under sub-image-cache coherence, the resolution loop produces exactly the
pure per-index frames, preserves coherence, and (hence) is independent of
which entries happen to be cached. -/
theorem resolveFrames_spec (d : asespriteData) (atlas : ebiten.Image) :
    ∀ (idxs : List ℤ) (cache : List (Option ebiten.Image)),
      ImgCacheWfOn d atlas cache →
      (resolveFrames d atlas idxs cache).1 = idxs.map (frameFor d atlas) ∧
      ImgCacheWfOn d atlas (resolveFrames d atlas idxs cache).2.1 := by
  intro idxs
  induction idxs with
  | nil => exact fun cache hwf => ⟨rfl, hwf⟩
  | cons i rest ih =>
    intro cache hwf
    cases hc : cache.getD i.toNat none with
    | some img =>
      have himg := hwf i.toNat img hc
      obtain ⟨h1, h2⟩ := ih cache hwf
      simp only [resolveFrames, hc, List.map_cons]
      refine ⟨?_, h2⟩
      rw [h1, himg]
      rfl
    | none =>
      have hwf' : ImgCacheWfOn d atlas
          (cache.set i.toNat
            (some (atlas.SubImage (rectOfFrame (d.Frames.getD i.toNat dManifestFrame))))) := by
        intro j img' hj
        by_cases hji : i.toNat = j
        · subst hji
          by_cases hlen : i.toNat < cache.length
          · rw [getD_set_eq _ _ _ _ hlen] at hj
            exact (Option.some.inj hj).symm
          · rw [List.set_eq_of_length_le (le_of_not_lt hlen)] at hj
            exact hwf _ img' hj
        · rw [getD_set_ne _ _ _ _ _ hji] at hj
          exact hwf j img' hj
      obtain ⟨h1, h2⟩ := ih _ hwf'
      simp only [resolveFrames, hc, List.map_cons]
      refine ⟨?_, h2⟩
      rw [h1]
      rfl

/-- A cache hit returns the cached animation with no work and no mutation
(asesprite.go:99-102). -/
theorem animation_cache_hit (sheet : AsespriteSpriteSheet) (name : String)
    (a : sprites.Animation) (hc : alistFind sheet.animationCache name = some a) :
    sheet.Animation name = (.ok a, sheet, 0) := by
  unfold AsespriteSpriteSheet.Animation
  rw [hc]

/-- After a successful `Animation` call, the result is cached under the
requested name in the resulting sheet. -/
theorem animation_ok_cache (sheet : AsespriteSpriteSheet) (name : String)
    (a : sprites.Animation) (s1 : AsespriteSpriteSheet) (k : ℕ)
    (h : sheet.Animation name = (.ok a, s1, k)) :
    alistFind s1.animationCache name = some a := by
  unfold AsespriteSpriteSheet.Animation at h
  cases hc : alistFind sheet.animationCache name with
  | some a0 =>
    rw [hc] at h
    simp only [Prod.mk.injEq, Except.ok.injEq] at h
    obtain ⟨ha, hs, -⟩ := h
    rw [← hs, hc, ha]
  | none =>
    rw [hc] at h
    cases ht : firstTag sheet.data.Metadata.FrameTags name with
    | none =>
      rw [ht] at h
      simp at h
    | some tag =>
      rw [ht] at h
      simp only [Prod.mk.injEq, Except.ok.injEq] at h
      obtain ⟨ha, hs, -⟩ := h
      rw [← hs]
      simp [alistFind, ha]

/-- `Animation` never changes the manifest data or the atlas image. -/
theorem animation_state_fields (sheet : AsespriteSpriteSheet) (name : String) :
    (sheet.Animation name).2.1.data = sheet.data ∧
    (sheet.Animation name).2.1.image = sheet.image := by
  unfold AsespriteSpriteSheet.Animation
  cases alistFind sheet.animationCache name with
  | some a => exact ⟨rfl, rfl⟩
  | none =>
    cases firstTag sheet.data.Metadata.FrameTags name with
    | none => exact ⟨rfl, rfl⟩
    | some tag => exact ⟨rfl, rfl⟩

/-- `Animation` never removes or overwrites an existing animation-cache
entry (insertion happens only on a miss). -/
theorem animation_preserves_cached (sheet : AsespriteSpriteSheet)
    (name n : String) (a : sprites.Animation)
    (hc : alistFind sheet.animationCache n = some a) :
    alistFind (sheet.Animation name).2.1.animationCache n = some a := by
  cases hx : alistFind sheet.animationCache name with
  | some a0 =>
    rw [animation_cache_hit sheet name a0 hx]
    exact hc
  | none =>
    cases ht : firstTag sheet.data.Metadata.FrameTags name with
    | none =>
      simp only [AsespriteSpriteSheet.Animation, hx, ht]
      exact hc
    | some tag =>
      have hne : name ≠ n := by
        intro he
        rw [he, hc] at hx
        exact Option.noConfusion hx
      simp only [AsespriteSpriteSheet.Animation, hx, ht]
      simpa [alistFind, hne] using hc

theorem firstTag_isSome_of_mem (tags : List frameTag) (n : String)
    (h : n ∈ tags.map frameTag.Name) : ∃ tg, firstTag tags n = some tg := by
  induction tags with
  | nil => simp at h
  | cons t rest ih =>
    by_cases he : t.Name = n
    · exact ⟨t, by simp [firstTag, he]⟩
    · rcases List.mem_cons.mp h with he2 | hmem
      · exact absurd he2.symm he
      · obtain ⟨tg, htg⟩ := ih hmem
        exact ⟨tg, by simp [firstTag, he, htg]⟩

/-- Unfolding of `Animation` on a cache miss whose name is found in the
frame-tag list (asesprite.go:119-154). -/
theorem animation_miss_found (sheet : AsespriteSpriteSheet) (n : String)
    (tg : frameTag) (hc : alistFind sheet.animationCache n = none)
    (htg : firstTag sheet.data.Metadata.FrameTags n = some tg) :
    sheet.Animation n =
      (.ok { Frames := (resolveFrames sheet.data sheet.image
                (rangeClosed tg.FromIdx tg.ToIdx) sheet.imageCache).1,
             Direction := tg.Direction },
       { sheet with
           imageCache := (resolveFrames sheet.data sheet.image
             (rangeClosed tg.FromIdx tg.ToIdx) sheet.imageCache).2.1,
           animationCache :=
             (n, { Frames := (resolveFrames sheet.data sheet.image
                     (rangeClosed tg.FromIdx tg.ToIdx) sheet.imageCache).1,
                   Direction := tg.Direction }) :: sheet.animationCache },
       (resolveFrames sheet.data sheet.image
         (rangeClosed tg.FromIdx tg.ToIdx) sheet.imageCache).2.2) := by
  simp only [AsespriteSpriteSheet.Animation, hc, htg]

/-- `Animation` always succeeds on a name listed in the manifest's frame
tags (in the model, sub-image extraction cannot fail). -/
theorem animation_total (sheet : AsespriteSpriteSheet) (n : String)
    (h : n ∈ sheet.data.Metadata.FrameTags.map frameTag.Name) :
    ∃ a s1 k, sheet.Animation n = (.ok a, s1, k) := by
  cases hc : alistFind sheet.animationCache n with
  | some a => exact ⟨a, sheet, 0, animation_cache_hit sheet n a hc⟩
  | none =>
    obtain ⟨tg, htg⟩ := firstTag_isSome_of_mem _ _ h
    exact ⟨_, _, _, animation_miss_found sheet n tg hc htg⟩

/-- A freshly constructed spritesheet is well-formed: both caches are empty. -/
theorem newSpritesheet_wf (img : ebiten.Image) (d : asespriteData) :
    Wf (NewSpritesheet img d) := by
  constructor
  · intro i im h
    simp only [NewSpritesheet] at h
    rw [getD_replicate_none] at h
    exact Option.noConfusion h
  · intro n a h
    exact Option.noConfusion h

end asesprite

namespace asesprite

/-- Correctness of the `AllAnimations` loop: it always succeeds, its result
map covers exactly the accumulated keys plus the remaining tag names, and
every map entry is present in the final sheet's animation cache. -/
theorem allAnimationsGo_spec :
    ∀ (tags : List frameTag) (sheet : AsespriteSpriteSheet)
      (acc : List (String × sprites.Animation)),
      (∀ tg ∈ tags, tg ∈ sheet.data.Metadata.FrameTags) →
      (∀ n a, alistFind acc n = some a → alistFind sheet.animationCache n = some a) →
      ∃ m s1, allAnimationsGo sheet acc tags = (.ok m, s1) ∧
        (∀ n, (alistFind m n).isSome ↔
          ((alistFind acc n).isSome ∨ n ∈ tags.map frameTag.Name)) ∧
        (∀ n a, alistFind m n = some a → alistFind s1.animationCache n = some a) := by
  intro tags
  induction tags with
  | nil =>
    intro sheet acc _ hacc
    exact ⟨acc, sheet, rfl, fun n => by simp, hacc⟩
  | cons tg rest ih =>
    intro sheet acc htags hacc
    have hmem : tg.Name ∈ sheet.data.Metadata.FrameTags.map frameTag.Name :=
      List.mem_map_of_mem _ (htags tg (List.mem_cons_self _ _))
    obtain ⟨a, s1, k, hA⟩ := animation_total sheet tg.Name hmem
    have hdata : s1.data = sheet.data := by
      have hf := (animation_state_fields sheet tg.Name).1
      rw [hA] at hf
      exact hf
    have hacc' : ∀ n b, alistFind ((tg.Name, a) :: acc) n = some b →
        alistFind s1.animationCache n = some b := by
      intro n b hb
      by_cases he : tg.Name = n
      · have hba : b = a := by
          simp [alistFind, he] at hb
          exact hb.symm
        subst hba
        have hk := animation_ok_cache sheet tg.Name b s1 k hA
        rw [he] at hk
        exact hk
      · simp only [alistFind, if_neg he] at hb
        have hmono := animation_preserves_cached sheet tg.Name n b (hacc n b hb)
        rw [hA] at hmono
        exact hmono
    have htags' : ∀ t ∈ rest, t ∈ s1.data.Metadata.FrameTags := by
      intro t ht
      rw [hdata]
      exact htags t (List.mem_cons_of_mem _ ht)
    obtain ⟨m, s2, hgo, hkey, hval⟩ := ih s1 ((tg.Name, a) :: acc) htags' hacc'
    refine ⟨m, s2, ?_, ?_, hval⟩
    · simp only [allAnimationsGo, hA]
      exact hgo
    · intro n
      rw [hkey n]
      by_cases he : tg.Name = n
      · subst he
        simp [alistFind]
      · simp [alistFind, he, Ne.symm he, List.mem_cons]

end asesprite

/-! ## Concrete spritesheet used in witnesses -/

def exWalkTag : asesprite.frameTag :=
  { Name := "walk", FromIdx := 0, ToIdx := 1, Direction := "forward" }

def exManifestFrame0 : asesprite.frame :=
  { Filename := "f0.png"
    Frame := { X := 0, Y := 0, Width := 16, Height := 16 }
    Rotated := false
    Trimmed := false
    SpriteSourceSize := { X := 0, Y := 0, Width := 16, Height := 16 }
    SourceSize := { Width := 16, Height := 16 }
    Duration := 100 }

def exManifestFrame1 : asesprite.frame :=
  { Filename := "f1.png"
    Frame := { X := 16, Y := 0, Width := 16, Height := 16 }
    Rotated := false
    Trimmed := false
    SpriteSourceSize := { X := 0, Y := 0, Width := 16, Height := 16 }
    SourceSize := { Width := 16, Height := 16 }
    Duration := 200 }

def exData : asesprite.asespriteData :=
  { Frames := [exManifestFrame0, exManifestFrame1]
    Metadata :=
      { Application := "aseprite"
        Version := "1.2"
        Image := "sheet.png"
        Format := "RGBA8888"
        Size := { Width := 32, Height := 16 }
        Scale := "1"
        FrameTags := [exWalkTag]
        Layers := []
        Slices := [] } }

def exAtlas : ebiten.Image := { region := goRect 0 0 32 16 }

/-- A freshly loaded two-frame spritesheet with one tag, "walk". -/
def exSheet : asesprite.AsespriteSpriteSheet := asesprite.NewSpritesheet exAtlas exData

/-- The animation the "walk" tag resolves to. -/
def exWalkAnim : sprites.Animation :=
  { Frames :=
      [ { Image := { region := goRect 0 0 16 16 }, Duration := 100000000 }
      , { Image := { region := goRect 16 0 32 16 }, Duration := 200000000 } ]
    Direction := "forward" }

/-- `exSheet` after resolving "walk": both frames cached, one animation cached. -/
def exSheetAfter : asesprite.AsespriteSpriteSheet :=
  { data := exData
    image := exAtlas
    imageCache := [some { region := goRect 0 0 16 16 }, some { region := goRect 16 0 32 16 }]
    animationCache := [("walk", exWalkAnim)] }

/-! ## Claim theorems: spritesheet loader -/

/-- C4: if `Animation(name)` succeeds, returning animation `a` and leaving
the spritesheet in state `s1` after `k` sub-image extractions, then a second
call on `s1` returns the identical cached object `a`, leaves the state
exactly `s1`, and performs 0 extractions — resolved lookups are idempotent
and side-effect-free. -/
theorem animation_lookup_idempotent (sheet : asesprite.AsespriteSpriteSheet)
    (name : String) (a : sprites.Animation) (s1 : asesprite.AsespriteSpriteSheet)
    (k : ℕ) (h : sheet.Animation name = (.ok a, s1, k)) :
    s1.Animation name = (.ok a, s1, 0) :=
  asesprite.animation_cache_hit s1 name a
    (asesprite.animation_ok_cache sheet name a s1 k h)

/-- Witness for C4: resolving "walk" on the fresh example sheet performs two
extractions; the repeated call returns the same object with none. -/
theorem animation_lookup_idempotent_witness :
    exSheet.Animation "walk" = (.ok exWalkAnim, exSheetAfter, 2) ∧
      exSheetAfter.Animation "walk" = (.ok exWalkAnim, exSheetAfter, 0) :=
  ⟨rfl, animation_lookup_idempotent exSheet "walk" exWalkAnim exSheetAfter 2 rfl⟩

theorem rangeClosed_length (lo hi : ℤ) :
    (asesprite.rangeClosed lo hi).length = (hi - lo + 1).toNat := by
  unfold asesprite.rangeClosed
  rw [List.length_map, List.length_range]

theorem rangeClosed_getElem? (lo hi : ℤ) (j : ℕ) (hj : j < (hi - lo + 1).toNat) :
    (asesprite.rangeClosed lo hi)[j]? = some (lo + (j : ℤ)) := by
  unfold asesprite.rangeClosed
  rw [List.getElem?_map, List.getElem?_range hj]
  rfl

/-- C5: for a name whose first matching frame tag has well-formed indices
0 ≤ from ≤ to < number of manifest frames, `Animation(name)` on a
well-formed spritesheet succeeds and returns the pure per-tag animation:
its frame sequence is non-empty, has length to − from + 1, and its j-th
entry is built from manifest frame index from + j (ascending order). -/
theorem animation_valid_tag (sheet : asesprite.AsespriteSpriteSheet) (name : String)
    (tg : asesprite.frameTag) (hwf : asesprite.Wf sheet)
    (htag : asesprite.firstTag sheet.data.Metadata.FrameTags name = some tg)
    (_h0 : 0 ≤ tg.FromIdx) (h1 : tg.FromIdx ≤ tg.ToIdx)
    (_h2 : tg.ToIdx < (sheet.data.Frames.length : ℤ)) :
    ∃ s1 k, sheet.Animation name =
        (.ok (asesprite.animFor sheet.data sheet.image tg), s1, k) ∧
      (asesprite.animFor sheet.data sheet.image tg).Frames.length =
        (tg.ToIdx - tg.FromIdx + 1).toNat ∧
      (asesprite.animFor sheet.data sheet.image tg).Frames ≠ [] ∧
      (∀ j : ℕ, (j : ℤ) < tg.ToIdx - tg.FromIdx + 1 →
        (asesprite.animFor sheet.data sheet.image tg).Frames.getD j sprites.dFrame =
          asesprite.frameFor sheet.data sheet.image (tg.FromIdx + (j : ℤ))) := by
  have hlen : (asesprite.animFor sheet.data sheet.image tg).Frames.length =
      (tg.ToIdx - tg.FromIdx + 1).toNat := by
    show ((asesprite.rangeClosed tg.FromIdx tg.ToIdx).map
      (asesprite.frameFor sheet.data sheet.image)).length = _
    rw [List.length_map, rangeClosed_length]
  have hne : (asesprite.animFor sheet.data sheet.image tg).Frames ≠ [] := by
    apply List.ne_nil_of_length_pos
    rw [hlen]
    omega
  have hidx : ∀ j : ℕ, (j : ℤ) < tg.ToIdx - tg.FromIdx + 1 →
      (asesprite.animFor sheet.data sheet.image tg).Frames.getD j sprites.dFrame =
        asesprite.frameFor sheet.data sheet.image (tg.FromIdx + (j : ℤ)) := by
    intro j hj
    have hjn : j < (tg.ToIdx - tg.FromIdx + 1).toNat := by omega
    show ((asesprite.rangeClosed tg.FromIdx tg.ToIdx).map
      (asesprite.frameFor sheet.data sheet.image)).getD j sprites.dFrame = _
    rw [List.getD_eq_getElem?_getD, List.getElem?_map, rangeClosed_getElem? _ _ _ hjn]
    rfl
  cases hc : asesprite.alistFind sheet.animationCache name with
  | some a =>
    obtain ⟨tg', htg', ha⟩ := hwf.2 name a hc
    rw [htag] at htg'
    have he : tg = tg' := Option.some.inj htg'
    subst he
    refine ⟨sheet, 0, ?_, hlen, hne, hidx⟩
    rw [asesprite.animation_cache_hit sheet name a hc, ha]
  | none =>
    have hmf := asesprite.animation_miss_found sheet name tg hc htag
    have hr := (asesprite.resolveFrames_spec sheet.data sheet.image
      (asesprite.rangeClosed tg.FromIdx tg.ToIdx) sheet.imageCache hwf.1).1
    rw [hr] at hmf
    exact ⟨_, _, hmf, hlen, hne, hidx⟩

/-- Witness for C5: the "walk" tag of the example sheet resolves to its
per-tag animation. -/
theorem animation_valid_tag_witness :
    ∃ s1 k, exSheet.Animation "walk" =
      (.ok (asesprite.animFor exSheet.data exSheet.image exWalkTag), s1, k) := by
  obtain ⟨s1, k, h, -, -, -⟩ := animation_valid_tag exSheet "walk" exWalkTag
    (asesprite.newSpritesheet_wf exAtlas exData) rfl (by decide) (by decide) (by decide)
  exact ⟨s1, k, h⟩

/-- C6: for a name with no matching frame tag, `Animation(name)` on a
well-formed spritesheet fails with `AnimationNotFoundError(name)` (whose
message names the requested tag) and leaves the sheet — both the sub-image
cache and the animation cache — unchanged, performing no extraction. -/
theorem animation_not_found (sheet : asesprite.AsespriteSpriteSheet) (name : String)
    (hwf : asesprite.Wf sheet)
    (habs : asesprite.firstTag sheet.data.Metadata.FrameTags name = none) :
    sheet.Animation name =
      (.error (asesprite.AnimationNotFoundError name), sheet, 0) := by
  have hc : asesprite.alistFind sheet.animationCache name = none := by
    cases hc : asesprite.alistFind sheet.animationCache name with
    | none => rfl
    | some a =>
      obtain ⟨tg2, htg2, -⟩ := hwf.2 name a hc
      rw [habs] at htg2
      exact Option.noConfusion htg2
  simp only [asesprite.AsespriteSpriteSheet.Animation, hc, habs]

/-- Witness for C6: looking up a missing tag name on the example sheet. -/
theorem animation_not_found_witness :
    exSheet.Animation "missing" =
      (.error (asesprite.AnimationNotFoundError "missing"), exSheet, 0) :=
  animation_not_found exSheet "missing" (asesprite.newSpritesheet_wf exAtlas exData) rfl

/-- C7: when every tag resolves (which, in the model, always holds: a tag
name always matches itself and sub-image extraction cannot fail),
`AllAnimations` succeeds with a mapping whose key set is exactly the set of
manifest tag names, each mapped to the very object a subsequent
`Animation(name)` call returns; nothing is returned on an error by
construction (the error arm of the loop carries no mapping). -/
theorem allAnimations_complete (sheet : asesprite.AsespriteSpriteSheet)
    (_hidx : ∀ tg ∈ sheet.data.Metadata.FrameTags, tg.FromIdx ≤ tg.ToIdx →
      0 ≤ tg.FromIdx ∧ tg.ToIdx < (sheet.data.Frames.length : ℤ)) :
    ∃ m s1, sheet.AllAnimations = (.ok m, s1) ∧
      (∀ n, (asesprite.alistFind m n).isSome ↔
        n ∈ sheet.data.Metadata.FrameTags.map asesprite.frameTag.Name) ∧
      (∀ n a, asesprite.alistFind m n = some a → s1.Animation n = (.ok a, s1, 0)) := by
  obtain ⟨m, s1, hgo, hkey, hval⟩ :=
    asesprite.allAnimationsGo_spec sheet.data.Metadata.FrameTags sheet []
      (fun tg ht => ht) (fun n a h => Option.noConfusion h)
  refine ⟨m, s1, hgo, ?_, ?_⟩
  · intro n
    rw [hkey n]
    simp [asesprite.alistFind]
  · intro n a hm
    exact asesprite.animation_cache_hit s1 n a (hval n a hm)

/-- Witness for C7 on the example sheet (its single tag has well-formed
indices). -/
theorem allAnimations_complete_witness :
    ∃ m s1, exSheet.AllAnimations = (.ok m, s1) ∧
      (∀ n, (asesprite.alistFind m n).isSome ↔
        n ∈ exSheet.data.Metadata.FrameTags.map asesprite.frameTag.Name) ∧
      (∀ n a, asesprite.alistFind m n = some a → s1.Animation n = (.ok a, s1, 0)) :=
  allAnimations_complete exSheet (by decide)
